import Mathlib

/-
Verification development for the ar_jenga realtime session server
(`server.cjs`, final drop-in replacement version).

The server keeps a `Map` of rooms; each room holds an ordered player list
(each entry pairing a socket with its server-authoritative `playerData`)
and a `gameState` object mapping block ids to block data.  Socket event
handlers (`createRoom`, `joinRoom`, `set-base-position`, `player-ready`,
`update-block`, `disconnect`) mutate this state and emit socket messages.

The embedding below models each handler as a pure function from server
state (an association list mirroring the insertion-ordered JS `Map`) to a
new state plus the list of emitted messages.  Fields that a client may
omit are modelled as `Option`; a JS property access on `undefined`
(a thrown `TypeError`) is modelled by the `Except` error branch.
Coordinates are modelled as ideal integers: the only arithmetic the
server performs on them is subtraction, which is exact.
-/

namespace ARJenga

/-- A 3-component position vector (JS `{x, y, z}`). -/
structure Vec3 where
  x : Int
  y : Int
  z : Int
deriving DecidableEq, Repr

/-- A quaternion payload, relayed untouched by the server. -/
structure Quat where
  qx : Int
  qy : Int
  qz : Int
  qw : Int
deriving DecidableEq, Repr

/-- Server-side per-player data, as built by `Room.addPlayer`:
`Object.assign({}, playerData, { name: socket.id, ready: !!playerData.ready })`,
with `basePosition` written later by the `set-base-position` handler. -/
structure PlayerData where
  name : String
  ready : Bool
  basePosition : Option Vec3
deriving DecidableEq, Repr

/-- Inbound `playerData` supplied by the client on create/join.  `ready`
models the truthiness `!!playerData.ready` (false when the field is
absent); `basePosition` is copied through by `Object.assign` when the
client supplies one. -/
structure PlayerDataIn where
  ready : Bool
  basePosition : Option Vec3
deriving DecidableEq, Repr

/-- The default inbound player data `{}` (absent fields). -/
def PlayerDataIn.empty : PlayerDataIn := ⟨false, none⟩

/-- One entry of `room.players`: the socket (identified by its id) paired
with the player data. -/
structure Player where
  socketId : String
  playerData : PlayerData
deriving DecidableEq, Repr

/-- Inbound `blockData` of an `update-block` event; each field may be
absent. -/
structure BlockDataIn where
  id : Option String
  position : Option Vec3
  quaternion : Option Quat
deriving DecidableEq, Repr

/-- The `relativeChange` object built by the `update-block` handler (also
the value type of `room.gameState`). -/
structure BlockRel where
  id : Option String
  relativePosition : Vec3
  quaternion : Option Quat
deriving DecidableEq, Repr

/-- A room: id, ordered player list, and the `gameState` object mapping
block-id keys to block data (modelled as an insertion-ordered association
list, like a plain JS object). -/
structure Room where
  roomId : String
  players : List Player
  gameState : List (String × BlockRel)
deriving DecidableEq, Repr

/-- The key a JS object uses for `obj[x]` when `x` may be `undefined`. -/
def jsKey : Option String → String
  | none => "undefined"
  | some s => s

/-- Set a key in an insertion-ordered association list (JS object /
`Map.set` semantics: overwrite in place, else append). -/
def assocSet (m : List (String × BlockRel)) (k : String) (v : BlockRel) :
    List (String × BlockRel) :=
  match m with
  | [] => [(k, v)]
  | kv :: rest => if kv.1 == k then (k, v) :: rest else kv :: assocSet rest k v

/-- `Room.addPlayer(socket, playerData = {})`: pushes
`{ socket, playerData: Object.assign({}, playerData, { name: socket.id, ready: !!playerData.ready }) }`. -/
def Room.addPlayer (r : Room) (sid : String) (pd : Option PlayerDataIn) : Room :=
  let p := pd.getD PlayerDataIn.empty
  { r with players := r.players ++ [⟨sid, ⟨sid, p.ready, p.basePosition⟩⟩] }

/-- `Room.isFull()`: `players.length >= 2`. -/
def Room.isFull (r : Room) : Bool :=
  decide (2 ≤ r.players.length)

/-- The snapshot returned by `Room.getState()`. -/
structure RoomState where
  roomId : String
  players : List PlayerData
  gameState : List (String × BlockRel)
deriving DecidableEq, Repr

/-- `Room.getState()`. -/
def Room.getState (r : Room) : RoomState :=
  ⟨r.roomId, r.players.map (·.playerData), r.gameState⟩

/-- `Room.updateGameState(blockData)`: `this.gameState[blockData.id] = blockData`. -/
def Room.updateGameState (r : Room) (bd : BlockRel) : Room :=
  { r with gameState := assocSet r.gameState (jsKey bd.id) bd }

/-- The server's `rooms` map: an insertion-ordered association of room ids
to rooms (JS `Map`). -/
abbrev ServerState := List (String × Room)

/-- `rooms.get(key)` for a key that is definitely a string. -/
def roomsFind (st : ServerState) (k : String) : Option Room :=
  (st.find? (fun kv => kv.1 == k)).map (·.2)

/-- `rooms.get(key)` where the key may be `undefined` (a `Map` holds no
`undefined` key here, so the lookup misses). -/
def roomsGet (st : ServerState) (k : Option String) : Option Room :=
  match k with
  | none => none
  | some key => roomsFind st key

/-- `rooms.set(key, value)`: overwrite the entry in place, else append. -/
def roomsSet (st : ServerState) (k : String) (v : Room) : ServerState :=
  match st with
  | [] => [(k, v)]
  | kv :: rest => if kv.1 == k then (k, v) :: rest else kv :: roomsSet rest k v

/-- `rooms.delete(key)`. -/
def roomsDelete (st : ServerState) (k : String) : ServerState :=
  match st with
  | [] => []
  | kv :: rest => if kv.1 == k then rest else kv :: roomsDelete rest k

/-- Mutate the first element of a list satisfying `pred` (JS
`arr.find(pred)` followed by in-place mutation of the found object). -/
def updateFirst (pred : Player → Bool) (f : Player → Player) :
    List Player → List Player
  | [] => []
  | a :: as => if pred a then f a :: as else a :: updateFirst pred f as

/-- Remove the first element of a list satisfying `pred` (JS
`findIndex` + `splice(index, 1)`). -/
def removeFirst (pred : Player → Bool) : List Player → List Player
  | [] => []
  | a :: as => if pred a then as else a :: removeFirst pred as

/-- A JS exception thrown inside an event handler (property access on
`undefined`). -/
inductive JsError
  | typeError
deriving DecidableEq, Repr

/-- An outbound socket message, with its routing. -/
inductive Emit
  | roomCreated (target roomId : String)
  | roomError (target msg : String)
  | joinedRoom (target roomId : String) (state : RoomState)
  | playerJoined (roomId exceptId playerId : String)
  | startGame (roomId : String) (gameState : List (String × BlockRel))
  | turnUpdate (roomId currentTurn : String)
  | updateBlockOut (roomId : String) (blockData : BlockRel)
  | playerDisconnected (roomId exceptId playerId : String)
deriving DecidableEq, Repr

/-- Payload of `joinRoom`. -/
structure JoinPayload where
  roomId : Option String
  playerData : Option PlayerDataIn
deriving DecidableEq, Repr

/-- Payload of `set-base-position`. -/
structure SetBasePayload where
  roomId : Option String
  position : Option Vec3
deriving DecidableEq, Repr

/-- Payload of `player-ready`. -/
structure ReadyPayload where
  roomId : Option String
deriving DecidableEq, Repr

/-- Payload of `update-block`. -/
structure UpdateBlockPayload where
  roomId : Option String
  blockData : Option BlockDataIn
deriving DecidableEq, Repr

/-- The `createRoom` handler.  `freshId` stands for the value of
`Math.random().toString(36).substring(7)`; the handler registers it with
`rooms.set` without any collision check.  It cannot throw: the payload
parameter has a `{}` default. -/
def createRoom (st : ServerState) (sid freshId : String)
    (playerData : Option PlayerDataIn) : ServerState × List Emit :=
  let room := (Room.mk freshId [] []).addPlayer sid playerData
  (roomsSet st freshId room, [Emit.roomCreated sid freshId])

/-- The `joinRoom` handler.  Destructuring a missing payload throws;
an absent or unknown `roomId` yields the "Room not found" error; a full
room yields "Room is full"; otherwise the player is appended and the
snapshot (taken after the append) is sent back. -/
def joinRoom (st : ServerState) (sid : String) (payload : Option JoinPayload) :
    Except JsError (ServerState × List Emit) :=
  match payload with
  | none => .error .typeError
  | some pl =>
    match pl.roomId with
    | none => .ok (st, [.roomError sid "Room not found"])
    | some rid =>
      match roomsFind st rid with
      | none => .ok (st, [.roomError sid "Room not found"])
      | some room =>
        if room.isFull then .ok (st, [.roomError sid "Room is full"])
        else
          let room' := room.addPlayer sid pl.playerData
          .ok (roomsSet st rid room',
            [.joinedRoom sid rid room'.getState, .playerJoined rid sid sid])

/-- The `set-base-position` handler: find the sender's player entry by
socket id and set its `basePosition` to the supplied position; silent
no-op (only logged) when the player is not in the room. -/
def setBasePosition (st : ServerState) (sid : String)
    (payload : Option SetBasePayload) :
    Except JsError (ServerState × List Emit) :=
  match payload with
  | none => .error .typeError
  | some pl =>
    match pl.roomId with
    | none => .ok (st, [.roomError sid "Room not found"])
    | some rid =>
      match roomsFind st rid with
      | none => .ok (st, [.roomError sid "Room not found"])
      | some room =>
        if room.players.any (fun p => p.socketId == sid) then
          let room' := { room with
            players := updateFirst (fun p => p.socketId == sid)
              (fun p => { p with playerData :=
                { p.playerData with basePosition := pl.position } })
              room.players }
          .ok (roomsSet st rid room', [])
        else .ok (st, [])

/-- The `player-ready` handler: mark the sender's entry ready (if found),
then evaluate `allReady = players.every(ready)`; when all are ready,
broadcast `start-game` with the game state followed by `turn-update`
naming `players[0]` — indexing an empty player list would throw. -/
def playerReady (st : ServerState) (sid : String)
    (payload : Option ReadyPayload) :
    Except JsError (ServerState × List Emit) :=
  match payload with
  | none => .error .typeError
  | some pl =>
    match pl.roomId with
    | none => .ok (st, [.roomError sid "Room not found"])
    | some rid =>
      match roomsFind st rid with
      | none => .ok (st, [.roomError sid "Room not found"])
      | some room =>
        let found := room.players.any (fun p => p.socketId == sid)
        let room' :=
          if found then
            { room with
              players := updateFirst (fun p => p.socketId == sid)
                (fun p => { p with playerData :=
                  { p.playerData with ready := true } })
                room.players }
          else room
        let st' := if found then roomsSet st rid room' else st
        if room'.players.all (fun p => p.playerData.ready) then
          match room'.players with
          | [] => .error .typeError
          | p0 :: _ =>
            .ok (st',
              [.startGame rid room'.gameState,
               .turnUpdate rid p0.playerData.name])
        else .ok (st', [])

/-- The `update-block` handler: all failure paths (unknown room, sender
not a participant, no base position) are silent no-ops that emit nothing;
on success it broadcasts the relative block data (component-wise
subtraction of the sender's base position) and a `turn-update` naming the
participant after the sender.  It never writes `room.gameState`.
Accessing `blockData.id` / `blockData.position.x` on a missing object
throws. -/
def updateBlock (st : ServerState) (sid : String)
    (payload : Option UpdateBlockPayload) :
    Except JsError (ServerState × List Emit) :=
  match payload with
  | none => .error .typeError
  | some pl =>
    match pl.roomId with
    | none => .ok (st, [])
    | some rid =>
      match roomsFind st rid with
      | none => .ok (st, [])
      | some room =>
        match room.players.find? (fun p => p.socketId == sid) with
        | none => .ok (st, [])
        | some player =>
          match player.playerData.basePosition with
          | none => .ok (st, [])
          | some base =>
            match pl.blockData with
            | none => .error .typeError
            | some bd =>
              match bd.position with
              | none => .error .typeError
              | some pos =>
                let rel : BlockRel :=
                  { id := bd.id
                    relativePosition :=
                      ⟨pos.x - base.x, pos.y - base.y, pos.z - base.z⟩
                    quaternion := bd.quaternion }
                match room.players.findIdx? (fun p => p.socketId == sid) with
                | none => .ok (st, [.updateBlockOut rid rel])
                | some i =>
                  match room.players[(i + 1) % room.players.length]? with
                  | none => .error .typeError
                  | some pnext =>
                    .ok (st,
                      [.updateBlockOut rid rel,
                       .turnUpdate rid pnext.playerData.name])

/-- The `disconnect` handler: scan the rooms map in insertion order for
the first room containing the socket, splice the player out, then delete
the room if it became empty, else notify the remaining members. -/
def disconnect (st : ServerState) (sid : String) : ServerState × List Emit :=
  match st.find? (fun kv => kv.2.players.any (fun p => p.socketId == sid)) with
  | none => (st, [])
  | some kv =>
    let players' := removeFirst (fun p => p.socketId == sid) kv.2.players
    if players'.isEmpty then (roomsDelete st kv.1, [])
    else
      (roomsSet st kv.1 { kv.2 with players := players' },
       [.playerDisconnected kv.1 sid sid])

/-- One inbound event together with its sender. -/
inductive Event
  | createRoom (sid freshId : String) (playerData : Option PlayerDataIn)
  | joinRoom (sid : String) (payload : Option JoinPayload)
  | setBasePosition (sid : String) (payload : Option SetBasePayload)
  | playerReady (sid : String) (payload : Option ReadyPayload)
  | updateBlock (sid : String) (payload : Option UpdateBlockPayload)
  | disconnect (sid : String)

/-- Dispatch one inbound event to its handler. -/
def step (st : ServerState) : Event → Except JsError (ServerState × List Emit)
  | .createRoom sid fid pd => .ok (createRoom st sid fid pd)
  | .joinRoom sid pl => joinRoom st sid pl
  | .setBasePosition sid pl => setBasePosition st sid pl
  | .playerReady sid pl => playerReady st sid pl
  | .updateBlock sid pl => updateBlock st sid pl
  | .disconnect sid => .ok (disconnect st sid)

/-- The room id freshly registered by an event, if any (only `createRoom`
registers a new id). -/
def createdId : Event → Option String
  | .createRoom _ fid _ => some fid
  | _ => none

/-- Equality of handler results is decidable, so concrete runs of the
handlers can be checked by `decide`. -/
instance : DecidableEq (Except JsError (ServerState × List Emit)) := fun a b =>
  match a, b with
  | .ok x, .ok y =>
    if h : x = y then .isTrue (by rw [h])
    else .isFalse (by intro hc; cases hc; exact h rfl)
  | .error x, .error y =>
    if h : x = y then .isTrue (by rw [h])
    else .isFalse (by intro hc; cases hc; exact h rfl)
  | .ok _, .error _ => .isFalse (by intro hc; cases hc)
  | .error _, .ok _ => .isFalse (by intro hc; cases hc)

/-- A well-formed rooms map: no two entries share a room id.  Every state
the server actually builds satisfies this, because `rooms.set` is the only
way entries are added and a JS `Map` keeps keys unique. -/
abbrev WellKeyed (st : ServerState) : Prop :=
  (st.map Prod.fst).Nodup

/-- One player entry evolving into another under the server's in-place
mutations: the socket id and server-authoritative name are preserved, and
a `ready` flag that is true stays true. -/
def evolves (p q : Player) : Prop :=
  q.socketId = p.socketId ∧ q.playerData.name = p.playerData.name ∧
    (p.playerData.ready = true → q.playerData.ready = true)

/-- `SubEvolved l l'`: `l'` is obtained from `l` by deleting some entries
and evolving (per `evolves`) the kept ones, preserving order. -/
inductive SubEvolved : List Player → List Player → Prop
  | nil : SubEvolved [] []
  | keep {p q : Player} {l l' : List Player} :
      evolves p q → SubEvolved l l' → SubEvolved (p :: l) (q :: l')
  | drop {p : Player} {l l' : List Player} :
      SubEvolved l l' → SubEvolved (p :: l) l'

end ARJenga

namespace ARJenga

theorem evolves_refl (p : Player) : evolves p p :=
  ⟨rfl, rfl, fun h => h⟩

theorem subEvolved_refl (l : List Player) : SubEvolved l l := by
  induction l with
  | nil => exact .nil
  | cons p rest ih => exact .keep (evolves_refl p) ih

theorem subEvolved_updateFirst (pred : Player → Bool) (f : Player → Player)
    (hf : ∀ p, evolves p (f p)) (l : List Player) :
    SubEvolved l (updateFirst pred f l) := by
  induction l with
  | nil => exact .nil
  | cons p rest ih =>
    simp only [updateFirst]
    split
    · exact .keep (hf p) (subEvolved_refl rest)
    · exact .keep (evolves_refl p) ih

theorem subEvolved_removeFirst (pred : Player → Bool) (l : List Player) :
    SubEvolved l (removeFirst pred l) := by
  induction l with
  | nil => exact .nil
  | cons p rest ih =>
    simp only [removeFirst]
    split
    · exact .drop (subEvolved_refl rest)
    · exact .keep (evolves_refl p) ih

theorem length_updateFirst (pred : Player → Bool) (f : Player → Player)
    (l : List Player) : (updateFirst pred f l).length = l.length := by
  induction l with
  | nil => rfl
  | cons p rest ih =>
    simp only [updateFirst]
    split <;> simp [ih]

theorem roomsFind_cons (kv : String × Room) (rest : ServerState) (k : String) :
    roomsFind (kv :: rest) k =
      if kv.1 == k then some kv.2 else roomsFind rest k := by
  by_cases h : kv.1 == k
  · simp [roomsFind, List.find?, h]
  · simp only [Bool.not_eq_true] at h
    simp [roomsFind, List.find?, h]

theorem roomsFind_roomsSet_self (st : ServerState) (k : String) (v : Room) :
    roomsFind (roomsSet st k v) k = some v := by
  induction st with
  | nil => simp [roomsSet, roomsFind_cons]
  | cons kv rest ih =>
    simp only [roomsSet]
    split
    · simp [roomsFind_cons]
    · next h =>
      rw [roomsFind_cons]
      simp only [Bool.not_eq_true] at h
      simp [h, ih]

theorem roomsFind_roomsSet_other (st : ServerState) (k : String) (v : Room)
    (k' : String) (h : k' ≠ k) :
    roomsFind (roomsSet st k v) k' = roomsFind st k' := by
  induction st with
  | nil =>
    simp [roomsSet, roomsFind_cons, roomsFind]
    intro hc
    exact absurd hc.symm h
  | cons kv rest ih =>
    simp only [roomsSet]
    split
    · next hk =>
      rw [roomsFind_cons, roomsFind_cons]
      have hkk : kv.1 = k := by simpa using hk
      have h1 : (k == k') = false := by
        simp [BEq.comm]
        exact fun hc => absurd hc.symm h
      have h2 : (kv.1 == k') = false := by
        simp [hkk]
        exact fun hc => absurd hc.symm h
      simp [h1, h2]
    · rw [roomsFind_cons, roomsFind_cons, ih]

theorem roomsFind_roomsDelete_other (st : ServerState) (k : String)
    (k' : String) (h : k' ≠ k) :
    roomsFind (roomsDelete st k) k' = roomsFind st k' := by
  induction st with
  | nil => rfl
  | cons kv rest ih =>
    simp only [roomsDelete]
    split
    · next hk =>
      have hkk : kv.1 = k := by simpa using hk
      rw [roomsFind_cons]
      have h2 : (kv.1 == k') = false := by
        simp [hkk]
        exact fun hc => absurd hc.symm h
      simp [h2]
    · rw [roomsFind_cons, roomsFind_cons, ih]

theorem roomsFind_roomsDelete_self (st : ServerState) (k : String)
    (hwk : WellKeyed st) : roomsFind (roomsDelete st k) k = none := by
  induction st with
  | nil => rfl
  | cons kv rest ih =>
    simp only [WellKeyed, List.map_cons, List.nodup_cons] at hwk
    simp only [roomsDelete]
    split
    · next hk =>
      have hkk : kv.1 = k := by simpa using hk
      simp only [roomsFind, Option.map_eq_none']
      rw [List.find?_eq_none]
      intro x hx
      simp only [beq_iff_eq]
      intro hx1
      have hmem : x.1 ∈ List.map Prod.fst rest := List.mem_map_of_mem Prod.fst hx
      rw [hx1, ← hkk] at hmem
      exact hwk.1 hmem
    · rw [roomsFind_cons]
      next hk =>
        have h2 : (kv.1 == k) = false := by simpa using hk
        simp [h2]
        exact ih hwk.2

theorem roomsFind_of_mem (st : ServerState) (kv : String × Room)
    (hwk : WellKeyed st) (hm : kv ∈ st) : roomsFind st kv.1 = some kv.2 := by
  induction st with
  | nil => cases hm
  | cons hd rest ih =>
    simp only [WellKeyed, List.map_cons, List.nodup_cons] at hwk
    rcases List.mem_cons.mp hm with h | h
    · subst h
      simp [roomsFind_cons]
    · rw [roomsFind_cons]
      have hne : (hd.1 == kv.1) = false := by
        simp only [beq_eq_false_iff_ne, ne_eq]
        intro hc
        exact hwk.1 (by rw [hc]; exact List.mem_map_of_mem Prod.fst h)
      simp only [hne]
      simp only [Bool.false_eq_true, if_false]
      exact ih hwk.2 h

end ARJenga

namespace ARJenga

/-- C10: the join operation performs no check that the joining connection
is already a participant.  Concretely, socket "A" creates room "r" (one
participant) and then sends `joinRoom` for that same room id: the join
succeeds, the player list afterwards holds two entries with the same
socket id "A", and the room now counts as full. -/
theorem c10_join_no_membership_check :
    joinRoom (createRoom [] "A" "r" none).1 "A" (some ⟨some "r", none⟩) =
      .ok ([("r", ⟨"r", [⟨"A", ⟨"A", false, none⟩⟩, ⟨"A", ⟨"A", false, none⟩⟩], []⟩)],
        [.joinedRoom "A" "r" ⟨"r", [⟨"A", false, none⟩, ⟨"A", false, none⟩], []⟩,
         .playerJoined "r" "A" "A"]) ∧
    Room.isFull ⟨"r", [⟨"A", ⟨"A", false, none⟩⟩, ⟨"A", ⟨"A", false, none⟩⟩], []⟩ = true := by
  decide

/-- C2: a successful `update-block` broadcasts the computed relative
block data but returns the server state UNCHANGED — in particular the
room's `gameState` (the trackedObjects mapping) still does not contain
`"obj1"` afterwards, because no handler ever invokes
`Room.updateGameState`.  The final conjunct shows that the (dead)
`Room.updateGameState` method would have stored the object under its id,
which is what the spec describes. -/
theorem c2_update_never_stored :
    updateBlock
        [("r", ⟨"r", [⟨"A", ⟨"A", true, some ⟨0, 0, 0⟩⟩⟩, ⟨"B", ⟨"B", true, none⟩⟩], []⟩)]
        "A" (some ⟨some "r", some ⟨some "obj1", some ⟨1, 2, 3⟩, some ⟨0, 0, 0, 1⟩⟩⟩) =
      .ok ([("r", ⟨"r", [⟨"A", ⟨"A", true, some ⟨0, 0, 0⟩⟩⟩, ⟨"B", ⟨"B", true, none⟩⟩], []⟩)],
        [.updateBlockOut "r" ⟨some "obj1", ⟨1, 2, 3⟩, some ⟨0, 0, 0, 1⟩⟩,
         .turnUpdate "r" "B"]) ∧
    Room.updateGameState ⟨"r", [], []⟩ ⟨some "obj1", ⟨1, 2, 3⟩, some ⟨0, 0, 0, 1⟩⟩ =
      ⟨"r", [], [("obj1", ⟨some "obj1", ⟨1, 2, 3⟩, some ⟨0, 0, 0, 1⟩⟩)]⟩ := by
  decide

/-- C1, counterexample: a session with exactly ONE participant fires the
game start.  Socket "A" creates room "r" and sends `player-ready`:
`allReady = players.every(ready)` is true over the singleton list, so
`start-game` and the first `turn-update` are broadcast although
`participants.length = 1`, refuting "allReady becomes true only if the
session has exactly two participants". -/
theorem c1_counterexample :
    playerReady (createRoom [] "A" "r" none).1 "A" (some ⟨some "r"⟩) =
      .ok ([("r", ⟨"r", [⟨"A", ⟨"A", true, none⟩⟩], []⟩)],
        [.startGame "r" [], .turnUpdate "r" "A"]) ∧
    (createRoom [] "A" "r" none).1.map (fun kv => kv.2.players.length) = [1] := by
  decide

/-- C3, counterexample: turn rotation is computed from the SENDER's index,
not from a stored turn counter, so updates issued "in any order" break
the round-robin.  In a two-player room (players "A", "B", both ready and
calibrated), a successful update by "A" announces `currentTurn = "B"` and
leaves the state unchanged; hence the identical second update by "A" — the
k = 2nd successful update since game start — again announces "B", while
the claim requires `participants[2 mod 2] = participants[0] = "A"`. -/
theorem c3_counterexample :
    updateBlock
        [("r", ⟨"r", [⟨"A", ⟨"A", true, some ⟨0, 0, 0⟩⟩⟩,
                      ⟨"B", ⟨"B", true, some ⟨0, 0, 0⟩⟩⟩], []⟩)]
        "A" (some ⟨some "r", some ⟨some "b1", some ⟨1, 1, 1⟩, none⟩⟩) =
      .ok ([("r", ⟨"r", [⟨"A", ⟨"A", true, some ⟨0, 0, 0⟩⟩⟩,
                         ⟨"B", ⟨"B", true, some ⟨0, 0, 0⟩⟩⟩], []⟩)],
        [.updateBlockOut "r" ⟨some "b1", ⟨1, 1, 1⟩, none⟩,
         .turnUpdate "r" "B"]) ∧
    (roomsFind
        [("r", ⟨"r", [⟨"A", ⟨"A", true, some ⟨0, 0, 0⟩⟩⟩,
                      ⟨"B", ⟨"B", true, some ⟨0, 0, 0⟩⟩⟩], []⟩)] "r").map
      (fun r => r.players.map (fun p => p.playerData.name)) = some ["A", "B"] := by
  decide

/-- C4, counterexample: the `update-block` handler does NOT validate the
payload shape before acting.  With a valid room and a calibrated sender,
a payload whose `blockData` is missing — or whose `blockData.position` is
missing — makes the handler throw a `TypeError` (property access on
`undefined`), rather than being treated as a no-op. -/
theorem c4_counterexample :
    updateBlock [("r", ⟨"r", [⟨"A", ⟨"A", false, some ⟨0, 0, 0⟩⟩⟩], []⟩)]
        "A" (some ⟨some "r", none⟩) = .error .typeError ∧
    updateBlock [("r", ⟨"r", [⟨"A", ⟨"A", false, some ⟨0, 0, 0⟩⟩⟩], []⟩)]
        "A" (some ⟨some "r", some ⟨some "b1", none, none⟩⟩) = .error .typeError := by
  decide

/-- C5, counterexample: `update-block` failures send NOTHING back to the
originating connection (the handler only logs and returns), refuting
"exactly one error message is unicast back".  Shown for all three failure
kinds: unknown room (`NotFound`), sender not a participant
(`NotAParticipant`), and sender without a base position
(`FrameNotCalibrated`). -/
theorem c5_counterexample :
    updateBlock [] "A" (some ⟨some "r", some ⟨some "b1", some ⟨1, 1, 1⟩, none⟩⟩) =
      .ok ([], []) ∧
    updateBlock [("r", ⟨"r", [⟨"A", ⟨"A", true, some ⟨0, 0, 0⟩⟩⟩], []⟩)]
        "B" (some ⟨some "r", some ⟨some "b1", some ⟨1, 1, 1⟩, none⟩⟩) =
      .ok ([("r", ⟨"r", [⟨"A", ⟨"A", true, some ⟨0, 0, 0⟩⟩⟩], []⟩)], []) ∧
    updateBlock [("r", ⟨"r", [⟨"A", ⟨"A", true, none⟩⟩], []⟩)]
        "A" (some ⟨some "r", some ⟨some "b1", some ⟨1, 1, 1⟩, none⟩⟩) =
      .ok ([("r", ⟨"r", [⟨"A", ⟨"A", true, none⟩⟩], []⟩)], []) := by
  decide

/-- C6, counterexample: `createRoom` registers the generated id with
`rooms.set` and never checks for a collision.  When the id generated for
"B" collides with the live room "ab" created by "A", the new session
REPLACES the old one: afterwards the map holds a single room "ab" whose
only participant is "B" — the previously live session is gone, refuting
"on a collision a fresh identifier is regenerated ... all previously live
sessions remain registered unchanged". -/
theorem c6_counterexample :
    (createRoom (createRoom [] "A" "ab" none).1 "B" "ab" none).1 =
      [("ab", ⟨"ab", [⟨"B", ⟨"B", false, none⟩⟩], []⟩)] := by
  decide

/-- C7, counterexample: nothing stops a connection from belonging to two
sessions at once.  "A" creates room "r1", "B" creates room "r2", and then
"A" successfully joins "r2": afterwards "A" is a participant of both
"r1" and "r2", refuting "each live connection is a member of at most one
session". -/
theorem c7_counterexample :
    joinRoom (createRoom (createRoom [] "A" "r1" none).1 "B" "r2" none).1
        "A" (some ⟨some "r2", none⟩) =
      .ok ([("r1", ⟨"r1", [⟨"A", ⟨"A", false, none⟩⟩], []⟩),
            ("r2", ⟨"r2", [⟨"B", ⟨"B", false, none⟩⟩, ⟨"A", ⟨"A", false, none⟩⟩], []⟩)],
        [.joinedRoom "A" "r2" ⟨"r2", [⟨"B", false, none⟩, ⟨"A", false, none⟩], []⟩,
         .playerJoined "r2" "A" "A"]) ∧
    (([("r1", ⟨"r1", [⟨"A", ⟨"A", false, none⟩⟩], []⟩),
       ("r2", ⟨"r2", [⟨"B", ⟨"B", false, none⟩⟩, ⟨"A", ⟨"A", false, none⟩⟩], []⟩)] :
        ServerState).filter
      (fun kv => kv.2.players.any (fun p => p.socketId == "A"))).map Prod.fst =
      ["r1", "r2"] := by
  decide

/-- C9, counterexample: `Room.addPlayer` initializes `ready` to
`!!playerData.ready`, the truthiness of a CALLER-SUPPLIED field.  A
creator whose `playerData` carries `ready: true` therefore enters the
session with `ready = true` although it never sent the explicit
`player-ready` signal, refuting "the ready flag is false from the moment
the participant enters the session until that participant explicitly
sends the ready signal". -/
theorem c9_counterexample :
    (createRoom [] "A" "r" (some ⟨true, none⟩)).1 =
      [("r", ⟨"r", [⟨"A", ⟨"A", true, none⟩⟩], []⟩)] := by
  decide

end ARJenga

namespace ARJenga

/-- Any successful `update-block` returns the server state unchanged: the
handler only broadcasts and never writes the room (in particular it never
touches `gameState`). -/
theorem updateBlock_ok_same (st st' : ServerState) (sid : String)
    (pl : Option UpdateBlockPayload) (out : List Emit)
    (h : updateBlock st sid pl = .ok (st', out)) : st' = st := by
  unfold updateBlock at h
  repeat any_goals split at h
  all_goals simp_all

/-- C8: coordinate translation is exact component-wise subtraction.  For
any participant found in the room with calibrated base `base` and any
update with absolute position `pos`, the broadcast block data carries
relative position `(pos.x − base.x, pos.y − base.y, pos.z − base.z)`
exactly. -/
theorem c8_relative_position_exact (st : ServerState) (sid rid : String)
    (room : Room) (player : Player) (base : Vec3) (i : Nat) (pnext : Player)
    (oid : Option String) (pos : Vec3) (q : Option Quat)
    (hfind : roomsFind st rid = some room)
    (hplayer : room.players.find? (fun p => p.socketId == sid) = some player)
    (hbase : player.playerData.basePosition = some base)
    (hidx : room.players.findIdx? (fun p => p.socketId == sid) = some i)
    (hnext : room.players[(i + 1) % room.players.length]? = some pnext) :
    updateBlock st sid (some ⟨some rid, some ⟨oid, some pos, q⟩⟩) =
      .ok (st, [.updateBlockOut rid
          ⟨oid, ⟨pos.x - base.x, pos.y - base.y, pos.z - base.z⟩, q⟩,
        .turnUpdate rid pnext.playerData.name]) := by
  simp only [updateBlock, hfind, hplayer, hbase, hidx, hnext]

/-- C8 witness: base frame offset `(1,2,3)` and update position `(4,6,8)`
yield stored/broadcast relative position `(3,4,5)`. -/
theorem c8_witness :
    updateBlock
        [("r", ⟨"r", [⟨"A", ⟨"A", true, some ⟨1, 2, 3⟩⟩⟩, ⟨"B", ⟨"B", true, none⟩⟩], []⟩)]
        "A" (some ⟨some "r", some ⟨some "obj1", some ⟨4, 6, 8⟩, none⟩⟩) =
      .ok ([("r", ⟨"r", [⟨"A", ⟨"A", true, some ⟨1, 2, 3⟩⟩⟩, ⟨"B", ⟨"B", true, none⟩⟩], []⟩)],
        [.updateBlockOut "r" ⟨some "obj1", ⟨3, 4, 5⟩, none⟩,
         .turnUpdate "r" "B"]) := by
  have h := c8_relative_position_exact
    [("r", ⟨"r", [⟨"A", ⟨"A", true, some ⟨1, 2, 3⟩⟩⟩, ⟨"B", ⟨"B", true, none⟩⟩], []⟩)]
    "A" "r"
    ⟨"r", [⟨"A", ⟨"A", true, some ⟨1, 2, 3⟩⟩⟩, ⟨"B", ⟨"B", true, none⟩⟩], []⟩
    ⟨"A", ⟨"A", true, some ⟨1, 2, 3⟩⟩⟩ ⟨1, 2, 3⟩ 0 ⟨"B", ⟨"B", true, none⟩⟩
    (some "obj1") ⟨4, 6, 8⟩ none (by decide) (by decide) (by decide) (by decide) (by decide)
  simpa using h

/-- C3, amended: the announced turn after a successful `update-object` is
`participants[(indexOf sender + 1) mod participants.length]` — it is
derived from the SENDER's index, not from a persisted turn counter, so
the strict round-robin `participants[k mod 2]` holds only when the
participants alternate (each update being issued by the announced current
player), not for updates issued in arbitrary order. -/
theorem c3_amended_turn_from_sender (st : ServerState) (sid rid : String)
    (room : Room) (player : Player) (base : Vec3) (i : Nat) (pnext : Player)
    (oid : Option String) (pos : Vec3) (q : Option Quat)
    (hfind : roomsFind st rid = some room)
    (hplayer : room.players.find? (fun p => p.socketId == sid) = some player)
    (hbase : player.playerData.basePosition = some base)
    (hidx : room.players.findIdx? (fun p => p.socketId == sid) = some i)
    (hnext : room.players[(i + 1) % room.players.length]? = some pnext) :
    ∃ rel, updateBlock st sid (some ⟨some rid, some ⟨oid, some pos, q⟩⟩) =
      .ok (st, [.updateBlockOut rid rel, .turnUpdate rid pnext.playerData.name]) :=
  ⟨⟨oid, ⟨pos.x - base.x, pos.y - base.y, pos.z - base.z⟩, q⟩,
    by simp only [updateBlock, hfind, hplayer, hbase, hidx, hnext]⟩

/-- C3 witness: in a two-player room, a successful update by the player
at index 1 ("B") announces the player at index (1+1) mod 2 = 0 ("A"). -/
theorem c3_witness :
    ∃ rel, updateBlock
        [("r", ⟨"r", [⟨"A", ⟨"A", true, some ⟨0, 0, 0⟩⟩⟩, ⟨"B", ⟨"B", true, some ⟨0, 0, 0⟩⟩⟩], []⟩)]
        "B" (some ⟨some "r", some ⟨some "b1", some ⟨1, 1, 1⟩, none⟩⟩) =
      .ok ([("r", ⟨"r", [⟨"A", ⟨"A", true, some ⟨0, 0, 0⟩⟩⟩, ⟨"B", ⟨"B", true, some ⟨0, 0, 0⟩⟩⟩], []⟩)],
        [.updateBlockOut "r" rel, .turnUpdate "r" "A"]) :=
  c3_amended_turn_from_sender
    [("r", ⟨"r", [⟨"A", ⟨"A", true, some ⟨0, 0, 0⟩⟩⟩, ⟨"B", ⟨"B", true, some ⟨0, 0, 0⟩⟩⟩], []⟩)]
    "B" "r"
    ⟨"r", [⟨"A", ⟨"A", true, some ⟨0, 0, 0⟩⟩⟩, ⟨"B", ⟨"B", true, some ⟨0, 0, 0⟩⟩⟩], []⟩
    ⟨"B", ⟨"B", true, some ⟨0, 0, 0⟩⟩⟩ ⟨0, 0, 0⟩ 1 ⟨"A", ⟨"A", true, some ⟨0, 0, 0⟩⟩⟩
    (some "b1") ⟨1, 1, 1⟩ none (by decide) (by decide) (by decide) (by decide) (by decide)

end ARJenga

namespace ARJenga

/-- C6, amended: `createRoom` registers the freshly generated identifier
unconditionally — there is no collision check and no regeneration.  The
new session (sole participant = creator) is registered under `freshId`,
exactly one `roomCreated` is sent, and every session under a DIFFERENT id
is untouched; on a collision the entry under `freshId` is simply
replaced (sessions are never merged). -/
theorem c6_amended_create_overwrites (st : ServerState) (sid fid : String)
    (pd : Option PlayerDataIn) :
    (createRoom st sid fid pd).2 = [.roomCreated sid fid] ∧
    roomsFind (createRoom st sid fid pd).1 fid =
      some ⟨fid, [⟨sid, ⟨sid, (pd.getD PlayerDataIn.empty).ready,
        (pd.getD PlayerDataIn.empty).basePosition⟩⟩], []⟩ ∧
    ∀ rid, rid ≠ fid →
      roomsFind (createRoom st sid fid pd).1 rid = roomsFind st rid := by
  refine ⟨rfl, ?_, ?_⟩
  · show roomsFind (roomsSet st fid ((Room.mk fid [] []).addPlayer sid pd)) fid = _
    rw [roomsFind_roomsSet_self]
    rfl
  · intro rid h
    show roomsFind (roomsSet st fid ((Room.mk fid [] []).addPlayer sid pd)) rid = _
    exact roomsFind_roomsSet_other st fid _ rid h

/-- C6 witness: creating room "ab" while room "x" is live registers "ab"
with its creator and leaves "x" unchanged. -/
theorem c6_witness :
    roomsFind (createRoom [("x", ⟨"x", [⟨"A", ⟨"A", false, none⟩⟩], []⟩)] "B" "ab" none).1 "ab" =
      some ⟨"ab", [⟨"B", ⟨"B", false, none⟩⟩], []⟩ ∧
    roomsFind (createRoom [("x", ⟨"x", [⟨"A", ⟨"A", false, none⟩⟩], []⟩)] "B" "ab" none).1 "x" =
      roomsFind [("x", ⟨"x", [⟨"A", ⟨"A", false, none⟩⟩], []⟩)] "x" :=
  ⟨(c6_amended_create_overwrites [("x", ⟨"x", [⟨"A", ⟨"A", false, none⟩⟩], []⟩)] "B" "ab" none).2.1,
   (c6_amended_create_overwrites [("x", ⟨"x", [⟨"A", ⟨"A", false, none⟩⟩], []⟩)] "B" "ab" none).2.2
     "x" (by decide)⟩

/-- C4, amended: an absent `roomId` is handled defensively (joinRoom
answers "Room not found"; update-block is a silent no-op), and an absent
payload object or — once room, membership and calibration checks have
passed — an absent `blockData` or `blockData.position` makes the handler
THROW a `TypeError`: the payload shape is not validated before use. -/
theorem c4_amended_shape_not_validated :
    (∀ (st : ServerState) (sid : String) (pd : Option PlayerDataIn),
      joinRoom st sid (some ⟨none, pd⟩) = .ok (st, [.roomError sid "Room not found"])) ∧
    (∀ (st : ServerState) (sid : String) (bd : Option BlockDataIn),
      updateBlock st sid (some ⟨none, bd⟩) = .ok (st, [])) ∧
    (∀ (st : ServerState) (sid : String),
      joinRoom st sid none = .error .typeError ∧
      setBasePosition st sid none = .error .typeError ∧
      playerReady st sid none = .error .typeError ∧
      updateBlock st sid none = .error .typeError) ∧
    (∀ (st : ServerState) (sid rid : String) (room : Room) (player : Player)
      (base : Vec3) (bd : Option BlockDataIn),
      roomsFind st rid = some room →
      room.players.find? (fun p => p.socketId == sid) = some player →
      player.playerData.basePosition = some base →
      (bd = none ∨ ∃ b, bd = some b ∧ b.position = none) →
      updateBlock st sid (some ⟨some rid, bd⟩) = .error .typeError) := by
  refine ⟨fun st sid pd => rfl, fun st sid bd => rfl,
    fun st sid => ⟨rfl, rfl, rfl, rfl⟩, ?_⟩
  intro st sid rid room player base bd hfind hplayer hbase hbd
  rcases hbd with h | ⟨b, hb, hpos⟩
  · subst h
    simp only [updateBlock, hfind, hplayer, hbase]
  · subst hb
    simp only [updateBlock, hfind, hplayer, hbase, hpos]

/-- C4 witness: an absent roomId on join is a clean "Room not found",
while an update-block whose blockData lacks a position throws. -/
theorem c4_witness :
    joinRoom [] "A" (some ⟨none, none⟩) = .ok ([], [.roomError "A" "Room not found"]) ∧
    updateBlock [("r", ⟨"r", [⟨"A", ⟨"A", false, some ⟨0, 0, 0⟩⟩⟩], []⟩)]
      "A" (some ⟨some "r", some ⟨some "b1", none, none⟩⟩) = .error .typeError :=
  ⟨c4_amended_shape_not_validated.1 [] "A" none,
   c4_amended_shape_not_validated.2.2.2 [("r", ⟨"r", [⟨"A", ⟨"A", false, some ⟨0, 0, 0⟩⟩⟩], []⟩)]
     "A" "r" ⟨"r", [⟨"A", ⟨"A", false, some ⟨0, 0, 0⟩⟩⟩], []⟩ ⟨"A", ⟨"A", false, some ⟨0, 0, 0⟩⟩⟩
     ⟨0, 0, 0⟩ (some ⟨some "b1", none, none⟩) (by decide) (by decide) (by decide)
     (Or.inr ⟨⟨some "b1", none, none⟩, rfl, rfl⟩)⟩

/-- C5, amended: `joinRoom` failures (`NotFound`, `Full`) and the
`NotFound` failures of `set-base-position` / `player-ready` unicast
exactly one `roomError` to the sender and leave the state unchanged;
every `update-block` failure (`NotFound`, `NotAParticipant`,
`FrameNotCalibrated`) emits NOTHING — not even an error to the sender —
and leaves the state unchanged.  No failure ever broadcasts partial
state. -/
theorem c5_amended_failure_fanout :
    (∀ (st : ServerState) (sid rid : String) (pd : Option PlayerDataIn),
      roomsFind st rid = none →
      joinRoom st sid (some ⟨some rid, pd⟩) = .ok (st, [.roomError sid "Room not found"])) ∧
    (∀ (st : ServerState) (sid rid : String) (pd : Option PlayerDataIn) (room : Room),
      roomsFind st rid = some room → room.isFull = true →
      joinRoom st sid (some ⟨some rid, pd⟩) = .ok (st, [.roomError sid "Room is full"])) ∧
    (∀ (st : ServerState) (sid rid : String) (pos : Option Vec3),
      roomsFind st rid = none →
      setBasePosition st sid (some ⟨some rid, pos⟩) = .ok (st, [.roomError sid "Room not found"])) ∧
    (∀ (st : ServerState) (sid rid : String),
      roomsFind st rid = none →
      playerReady st sid (some ⟨some rid⟩) = .ok (st, [.roomError sid "Room not found"])) ∧
    (∀ (st : ServerState) (sid rid : String) (bd : Option BlockDataIn),
      roomsFind st rid = none →
      updateBlock st sid (some ⟨some rid, bd⟩) = .ok (st, [])) ∧
    (∀ (st : ServerState) (sid rid : String) (bd : Option BlockDataIn) (room : Room),
      roomsFind st rid = some room →
      room.players.find? (fun p => p.socketId == sid) = none →
      updateBlock st sid (some ⟨some rid, bd⟩) = .ok (st, [])) ∧
    (∀ (st : ServerState) (sid rid : String) (bd : Option BlockDataIn)
      (room : Room) (player : Player),
      roomsFind st rid = some room →
      room.players.find? (fun p => p.socketId == sid) = some player →
      player.playerData.basePosition = none →
      updateBlock st sid (some ⟨some rid, bd⟩) = .ok (st, [])) := by
  refine ⟨?_, ?_, ?_, ?_, ?_, ?_, ?_⟩
  · intro st sid rid pd h
    simp only [joinRoom, h]
  · intro st sid rid pd room hfind hfull
    simp only [joinRoom, hfind, hfull, if_true]
  · intro st sid rid pos h
    simp only [setBasePosition, h]
  · intro st sid rid h
    simp only [playerReady, h]
  · intro st sid rid bd h
    simp only [updateBlock, h]
  · intro st sid rid bd room hfind hplayer
    simp only [updateBlock, hfind, hplayer]
  · intro st sid rid bd room player hfind hplayer hbase
    simp only [updateBlock, hfind, hplayer, hbase]

/-- C5 witness: a join against a nonexistent room gets exactly one error
unicast; an uncalibrated participant's update-block gets nothing. -/
theorem c5_witness :
    joinRoom [] "A" (some ⟨some "r", none⟩) = .ok ([], [.roomError "A" "Room not found"]) ∧
    updateBlock [("r", ⟨"r", [⟨"A", ⟨"A", true, none⟩⟩], []⟩)]
      "A" (some ⟨some "r", some ⟨some "b1", some ⟨1, 1, 1⟩, none⟩⟩) =
      .ok ([("r", ⟨"r", [⟨"A", ⟨"A", true, none⟩⟩], []⟩)], []) :=
  ⟨c5_amended_failure_fanout.1 [] "A" "r" none (by decide),
   c5_amended_failure_fanout.2.2.2.2.2.2 [("r", ⟨"r", [⟨"A", ⟨"A", true, none⟩⟩], []⟩)] "A" "r"
     (some ⟨some "b1", some ⟨1, 1, 1⟩, none⟩) ⟨"r", [⟨"A", ⟨"A", true, none⟩⟩], []⟩
     ⟨"A", ⟨"A", true, none⟩⟩ (by decide) (by decide) (by decide)⟩

end ARJenga

namespace ARJenga

/-- C1, amended: `allReady` is re-evaluated on every `player-ready` event
as `players.every(ready)` with NO check on the participant count.  For
any run of the handler on a room with a nonempty player list: the event
broadcasts something iff, after marking the sender (when found), every
current participant is ready; and when it does, the output is exactly
`start-game` followed by a `turn-update` naming `participants[0]`. -/
theorem c1_amended_all_ready_no_size_check (st : ServerState) (sid rid : String)
    (room : Room) (st' : ServerState) (out : List Emit) (room' : Room)
    (hfind : roomsFind st rid = some room)
    (hne : room.players ≠ [])
    (hrun : playerReady st sid (some ⟨some rid⟩) = .ok (st', out))
    (hafter : roomsFind st' rid = some room') :
    room'.gameState = room.gameState ∧
    (out ≠ [] ↔ room'.players.all (fun p => p.playerData.ready) = true) ∧
    (∀ p0 l, room'.players = p0 :: l →
      room'.players.all (fun p => p.playerData.ready) = true →
      out = [.startGame rid room.gameState, .turnUpdate rid p0.playerData.name]) := by
  simp only [playerReady, hfind] at hrun
  by_cases hf : room.players.any (fun p => p.socketId == sid)
  · simp only [hf, if_true] at hrun
    set updList := updateFirst (fun p => p.socketId == sid)
      (fun p => { p with playerData := { p.playerData with ready := true } })
      room.players with hupd
    by_cases hall : updList.all (fun p => p.playerData.ready)
    · simp only [hall, if_true] at hrun
      cases hU : updList with
      | nil =>
        rw [hU] at hrun
        simp at hrun
      | cons p0 rest =>
        rw [hU] at hrun hall
        simp only [Except.ok.injEq, Prod.mk.injEq] at hrun
        obtain ⟨hst', hout⟩ := hrun
        subst hst'
        rw [roomsFind_roomsSet_self] at hafter
        have hroom' : room' = { room with players := p0 :: rest } :=
          (Option.some.inj hafter).symm
        subst hroom'
        refine ⟨rfl, ⟨fun _ => hall, fun _ => ?_⟩, ?_⟩
        · rw [← hout]
          simp
        · intro q0 l hcons _
          simp only at hcons
          cases hcons
          exact hout.symm
    · simp only [if_neg hall] at hrun
      simp only [Except.ok.injEq, Prod.mk.injEq] at hrun
      obtain ⟨hst', hout⟩ := hrun
      subst hst'
      rw [roomsFind_roomsSet_self] at hafter
      have hroom' : room' = { room with players := updList } :=
        (Option.some.inj hafter).symm
      subst hroom'
      refine ⟨rfl, ⟨fun hne2 => (hne2 hout.symm).elim, fun habs => (hall habs).elim⟩, ?_⟩
      intro q0 l hcons habs
      exact (hall habs).elim
  · simp only [if_neg hf] at hrun
    by_cases hall : room.players.all (fun p => p.playerData.ready)
    · simp only [hall, if_true] at hrun
      cases hU : room.players with
      | nil => exact absurd hU hne
      | cons p0 rest =>
        rw [hU] at hrun
        simp only [Except.ok.injEq, Prod.mk.injEq] at hrun
        obtain ⟨hst', hout⟩ := hrun
        subst hst'
        rw [hfind] at hafter
        have hroom' : room' = room := (Option.some.inj hafter).symm
        subst hroom'
        refine ⟨rfl, ⟨fun _ => hall, fun _ => ?_⟩, ?_⟩
        · rw [← hout]
          simp
        · intro q0 l hcons _
          rw [hU] at hcons
          cases hcons
          exact hout.symm
    · simp only [if_neg hall] at hrun
      simp only [Except.ok.injEq, Prod.mk.injEq] at hrun
      obtain ⟨hst', hout⟩ := hrun
      subst hst'
      rw [hfind] at hafter
      have hroom' : room' = room := (Option.some.inj hafter).symm
      subst hroom'
      refine ⟨rfl, ⟨fun hne2 => (hne2 hout.symm).elim, fun habs => (hall habs).elim⟩, ?_⟩
      intro q0 l hcons habs
      exact (hall habs).elim

/-- C1 witness: in a room where "A" is already ready and "B" is not,
"B"'s `player-ready` makes everyone ready: `start-game` is broadcast
followed by `turn-update` naming `players[0] = "A"`. -/
theorem c1_witness :
    (⟨"r", [⟨"A", ⟨"A", true, none⟩⟩, ⟨"B", ⟨"B", true, none⟩⟩], []⟩ : Room).gameState =
      (⟨"r", [⟨"A", ⟨"A", true, none⟩⟩, ⟨"B", ⟨"B", false, none⟩⟩], []⟩ : Room).gameState ∧
    (([.startGame "r" [], .turnUpdate "r" "A"] : List Emit) ≠ [] ↔
      (⟨"r", [⟨"A", ⟨"A", true, none⟩⟩, ⟨"B", ⟨"B", true, none⟩⟩], []⟩ : Room).players.all
        (fun p => p.playerData.ready) = true) ∧
    (∀ p0 l,
      (⟨"r", [⟨"A", ⟨"A", true, none⟩⟩, ⟨"B", ⟨"B", true, none⟩⟩], []⟩ : Room).players =
        p0 :: l →
      (⟨"r", [⟨"A", ⟨"A", true, none⟩⟩, ⟨"B", ⟨"B", true, none⟩⟩], []⟩ : Room).players.all
        (fun p => p.playerData.ready) = true →
      ([.startGame "r" [], .turnUpdate "r" "A"] : List Emit) =
        [.startGame "r"
           (⟨"r", [⟨"A", ⟨"A", true, none⟩⟩, ⟨"B", ⟨"B", false, none⟩⟩], []⟩ : Room).gameState,
         .turnUpdate "r" p0.playerData.name]) :=
  c1_amended_all_ready_no_size_check
    [("r", ⟨"r", [⟨"A", ⟨"A", true, none⟩⟩, ⟨"B", ⟨"B", false, none⟩⟩], []⟩)] "B" "r"
    ⟨"r", [⟨"A", ⟨"A", true, none⟩⟩, ⟨"B", ⟨"B", false, none⟩⟩], []⟩
    [("r", ⟨"r", [⟨"A", ⟨"A", true, none⟩⟩, ⟨"B", ⟨"B", true, none⟩⟩], []⟩)]
    [.startGame "r" [], .turnUpdate "r" "A"]
    ⟨"r", [⟨"A", ⟨"A", true, none⟩⟩, ⟨"B", ⟨"B", true, none⟩⟩], []⟩
    (by decide) (by decide) (by decide) (by decide)

/-- C7, amended: create/join never check existing membership (see the
counterexample), so a connection can inhabit several sessions; what
`disconnect` guarantees is: if no room contains the socket it is a no-op,
and otherwise the FIRST room (in map insertion order) containing the
socket has that player spliced out — the room is destroyed exactly when
it thereby becomes empty, a `playerDisconnected` notice goes to the
remaining members otherwise, and every other room is untouched. -/
theorem c7_amended_disconnect_first_room (st : ServerState) (sid : String) :
    (st.find? (fun kv => kv.2.players.any (fun p => p.socketId == sid)) = none →
      disconnect st sid = (st, [])) ∧
    (∀ rid room, WellKeyed st →
      st.find? (fun kv => kv.2.players.any (fun p => p.socketId == sid)) =
        some (rid, room) →
      (removeFirst (fun p => p.socketId == sid) room.players = [] →
        roomsFind (disconnect st sid).1 rid = none ∧ (disconnect st sid).2 = []) ∧
      (removeFirst (fun p => p.socketId == sid) room.players ≠ [] →
        roomsFind (disconnect st sid).1 rid =
          some { room with
            players := removeFirst (fun p => p.socketId == sid) room.players } ∧
        (disconnect st sid).2 = [.playerDisconnected rid sid sid]) ∧
      (∀ rid', rid' ≠ rid →
        roomsFind (disconnect st sid).1 rid' = roomsFind st rid')) := by
  constructor
  · intro h
    simp only [disconnect, h]
  · intro rid room hwk hfirst
    by_cases hemp : removeFirst (fun p => p.socketId == sid) room.players = []
    · have hd : disconnect st sid = (roomsDelete st rid, []) := by
        simp only [disconnect, hfirst, hemp, List.isEmpty_nil, if_true]
      refine ⟨fun _ => ?_, fun hne => absurd hemp hne, ?_⟩
      · rw [hd]
        exact ⟨roomsFind_roomsDelete_self st rid hwk, rfl⟩
      · intro rid' hne'
        rw [hd]
        exact roomsFind_roomsDelete_other st rid rid' hne'
    · have hie : (removeFirst (fun p => p.socketId == sid) room.players).isEmpty = false := by
        cases hc : removeFirst (fun p => p.socketId == sid) room.players with
        | nil => exact absurd hc hemp
        | cons a l => rfl
      have hd : disconnect st sid =
          (roomsSet st rid { room with
            players := removeFirst (fun p => p.socketId == sid) room.players },
           [.playerDisconnected rid sid sid]) := by
        simp only [disconnect, hfirst, hie, Bool.false_eq_true, if_false]
      refine ⟨fun habs => absurd habs hemp, fun _ => ?_, ?_⟩
      · rw [hd]
        exact ⟨roomsFind_roomsSet_self st rid _, rfl⟩
      · intro rid' hne'
        rw [hd]
        exact roomsFind_roomsSet_other st rid _ rid' hne'

/-- C7 witness: disconnecting the sole participant of room "r" deletes
the room and emits nothing. -/
theorem c7_witness :
    roomsFind (disconnect [("r", ⟨"r", [⟨"A", ⟨"A", false, none⟩⟩], []⟩)] "A").1 "r" = none ∧
    (disconnect [("r", ⟨"r", [⟨"A", ⟨"A", false, none⟩⟩], []⟩)] "A").2 = [] :=
  ((c7_amended_disconnect_first_room
      [("r", ⟨"r", [⟨"A", ⟨"A", false, none⟩⟩], []⟩)] "A").2
    "r" ⟨"r", [⟨"A", ⟨"A", false, none⟩⟩], []⟩ (by decide) (by decide)).1 (by decide)

end ARJenga


namespace ARJenga

/-- Case helper: looking up `rid` after a `rooms.set` on `rid2` yields
either the written room (same key, and then the two reads of `st` agree)
or the untouched old room. -/
theorem c9_set_lookup (st : ServerState) (rid rid2 : String)
    (room room2 v room' : Room)
    (hfind : roomsFind st rid = some room)
    (hfind2 : roomsFind st rid2 = some room2)
    (hfind' : roomsFind (roomsSet st rid2 v) rid = some room') :
    (rid = rid2 ∧ room = room2 ∧ room' = v) ∨ (rid ≠ rid2 ∧ room' = room) := by
  by_cases h : rid = rid2
  · subst h
    rw [hfind] at hfind2
    rw [roomsFind_roomsSet_self] at hfind'
    exact Or.inl ⟨rfl, Option.some.inj hfind2, (Option.some.inj hfind').symm⟩
  · rw [roomsFind_roomsSet_other st rid2 v rid h, hfind] at hfind'
    exact Or.inr ⟨h, (Option.some.inj hfind').symm⟩

/-- Case helper: a room left untouched satisfies the evolution
conclusion with the whole player list kept. -/
theorem c9_keep {P : List Player → Prop} (room room' : Room) (h : room' = room) :
    ∃ core, SubEvolved room.players core ∧ (room'.players = core ∨ P core) :=
  ⟨room'.players, by rw [h]; exact subEvolved_refl _, Or.inl rfl⟩

/-- C9, amended: a participant entry's `ready` flag is initialized at
entry to the truthiness of the caller-supplied `playerData.ready` (false
when absent) — NOT necessarily false — and after entry no operation ever
turns an entry's `ready` from true back to false.  Part one characterizes
`Room.addPlayer`.  Part two: across any single dispatched event, the
player list of a room observed before and after (and not freshly
re-created under the same id) is EXACTLY an order-preserving sublist of
the old list whose kept entries evolve per `evolves` (same socket id and
name, `ready` never downgraded) — except when the event is precisely a
successful `joinRoom` into that room, where additionally the one entry
appended at the end is the joiner determined by that event's sender and
payload.  Part three: a `player-ready` from a participant rewrites the
state by setting the first matching entry's `ready` to true and nothing
else. -/
theorem c9_amended_ready_monotone :
    (∀ (r : Room) (sid : String) (pd : Option PlayerDataIn),
      (Room.addPlayer r sid pd).players =
        r.players ++ [⟨sid, ⟨sid, (pd.getD PlayerDataIn.empty).ready,
          (pd.getD PlayerDataIn.empty).basePosition⟩⟩]) ∧
    (∀ (st : ServerState) (e : Event) (st' : ServerState) (out : List Emit)
      (rid : String) (room room' : Room),
      WellKeyed st →
      step st e = .ok (st', out) →
      createdId e ≠ some rid →
      roomsFind st rid = some room →
      roomsFind st' rid = some room' →
      ∃ core, SubEvolved room.players core ∧
        (room'.players = core ∨
         ∃ jsid jpd, e = Event.joinRoom jsid (some ⟨some rid, jpd⟩) ∧
           room'.players = core ++
             [⟨jsid, ⟨jsid, (jpd.getD PlayerDataIn.empty).ready,
               (jpd.getD PlayerDataIn.empty).basePosition⟩⟩])) ∧
    (∀ (st st' : ServerState) (sid rid : String) (room : Room) (out : List Emit),
      roomsFind st rid = some room →
      room.players.any (fun p => p.socketId == sid) = true →
      playerReady st sid (some ⟨some rid⟩) = .ok (st', out) →
      st' = roomsSet st rid { room with
        players := updateFirst (fun p => p.socketId == sid)
          (fun p => { p with playerData := { p.playerData with ready := true } })
          room.players }) := by
  refine ⟨fun r sid pd => rfl, ?_, ?_⟩
  · intro st e st' out rid room room' hwk hstep hcid hfind hfind'
    cases e with
    | createRoom sid fid pd =>
      simp only [step, createRoom, Except.ok.injEq, Prod.mk.injEq] at hstep
      obtain ⟨hst', hout⟩ := hstep
      subst hst'
      simp only [createdId, ne_eq, Option.some.injEq] at hcid
      have hne : rid ≠ fid := fun h => hcid h.symm
      rw [roomsFind_roomsSet_other st fid _ rid hne, hfind] at hfind'
      exact c9_keep room room' (Option.some.inj hfind').symm
    | joinRoom sid pl =>
      simp only [step] at hstep
      cases pl with
      | none => simp [joinRoom] at hstep
      | some pl =>
        rcases pl with ⟨ridOpt, pdOpt⟩
        cases ridOpt with
        | none =>
          simp only [joinRoom, Except.ok.injEq, Prod.mk.injEq] at hstep
          obtain ⟨hst', hout⟩ := hstep
          subst hst'
          rw [hfind] at hfind'
          exact c9_keep room room' (Option.some.inj hfind').symm
        | some rid2 =>
          cases hfr : roomsFind st rid2 with
          | none =>
            simp only [joinRoom, hfr, Except.ok.injEq, Prod.mk.injEq] at hstep
            obtain ⟨hst', hout⟩ := hstep
            subst hst'
            rw [hfind] at hfind'
            exact c9_keep room room' (Option.some.inj hfind').symm
          | some room2 =>
            by_cases hfull : room2.isFull
            · simp only [joinRoom, hfr, if_pos hfull, Except.ok.injEq,
                Prod.mk.injEq] at hstep
              obtain ⟨hst', hout⟩ := hstep
              subst hst'
              rw [hfind] at hfind'
              exact c9_keep room room' (Option.some.inj hfind').symm
            · simp only [joinRoom, hfr, if_neg hfull, Except.ok.injEq,
                Prod.mk.injEq] at hstep
              obtain ⟨hst', hout⟩ := hstep
              subst hst'
              rcases c9_set_lookup st rid rid2 room room2 _ room' hfind hfr hfind' with
                ⟨heq, hrm, hv⟩ | ⟨hne, hsame⟩
              · refine ⟨room.players, subEvolved_refl _, Or.inr ⟨sid, pdOpt, ?_, ?_⟩⟩
                · rw [heq]
                · rw [hv]
                  show room2.players ++ _ = room.players ++ _
                  rw [hrm]
              · exact ⟨room.players, subEvolved_refl _, Or.inl (by rw [hsame])⟩
    | setBasePosition sid pl =>
      simp only [step] at hstep
      cases pl with
      | none => simp [setBasePosition] at hstep
      | some pl =>
        rcases pl with ⟨ridOpt, posOpt⟩
        cases ridOpt with
        | none =>
          simp only [setBasePosition, Except.ok.injEq, Prod.mk.injEq] at hstep
          obtain ⟨hst', hout⟩ := hstep
          subst hst'
          rw [hfind] at hfind'
          exact c9_keep room room' (Option.some.inj hfind').symm
        | some rid2 =>
          cases hfr : roomsFind st rid2 with
          | none =>
            simp only [setBasePosition, hfr, Except.ok.injEq, Prod.mk.injEq] at hstep
            obtain ⟨hst', hout⟩ := hstep
            subst hst'
            rw [hfind] at hfind'
            exact c9_keep room room' (Option.some.inj hfind').symm
          | some room2 =>
            by_cases hany : room2.players.any (fun p => p.socketId == sid)
            · simp only [setBasePosition, hfr, if_pos hany, Except.ok.injEq,
                Prod.mk.injEq] at hstep
              obtain ⟨hst', hout⟩ := hstep
              subst hst'
              rcases c9_set_lookup st rid rid2 room room2 _ room' hfind hfr hfind' with
                ⟨heq, hrm, hv⟩ | ⟨hne, hsame⟩
              · refine ⟨updateFirst (fun p => p.socketId == sid)
                    (fun p => { p with playerData :=
                      { p.playerData with basePosition := posOpt } }) room.players,
                  subEvolved_updateFirst (fun p => p.socketId == sid)
                    (fun p => { p with playerData :=
                      { p.playerData with basePosition := posOpt } })
                    (fun p => ⟨rfl, rfl, fun h => h⟩) room.players, Or.inl ?_⟩
                rw [hv]
                show updateFirst _ _ room2.players = updateFirst _ _ room.players
                rw [hrm]
              · exact ⟨room.players, subEvolved_refl _, Or.inl (by rw [hsame])⟩
            · simp only [setBasePosition, hfr, if_neg hany, Except.ok.injEq,
                Prod.mk.injEq] at hstep
              obtain ⟨hst', hout⟩ := hstep
              subst hst'
              rw [hfind] at hfind'
              exact c9_keep room room' (Option.some.inj hfind').symm
    | playerReady sid pl =>
      simp only [step] at hstep
      cases pl with
      | none => simp [playerReady] at hstep
      | some pl =>
        rcases pl with ⟨ridOpt⟩
        cases ridOpt with
        | none =>
          simp only [playerReady, Except.ok.injEq, Prod.mk.injEq] at hstep
          obtain ⟨hst', hout⟩ := hstep
          subst hst'
          rw [hfind] at hfind'
          exact c9_keep room room' (Option.some.inj hfind').symm
        | some rid2 =>
          cases hfr : roomsFind st rid2 with
          | none =>
            simp only [playerReady, hfr, Except.ok.injEq, Prod.mk.injEq] at hstep
            obtain ⟨hst', hout⟩ := hstep
            subst hst'
            rw [hfind] at hfind'
            exact c9_keep room room' (Option.some.inj hfind').symm
          | some room2 =>
            by_cases hany : room2.players.any (fun p => p.socketId == sid)
            · simp only [playerReady, hfr, if_pos hany] at hstep
              have hst' : st' = roomsSet st rid2 { room2 with
                  players := updateFirst (fun p => p.socketId == sid)
                    (fun p => { p with playerData :=
                      { p.playerData with ready := true } }) room2.players } := by
                split at hstep
                · split at hstep
                  · simp at hstep
                  · simp only [Except.ok.injEq, Prod.mk.injEq] at hstep
                    exact hstep.1.symm
                · simp only [Except.ok.injEq, Prod.mk.injEq] at hstep
                  exact hstep.1.symm
              subst hst'
              rcases c9_set_lookup st rid rid2 room room2 _ room' hfind hfr hfind' with
                ⟨heq, hrm, hv⟩ | ⟨hne, hsame⟩
              · refine ⟨updateFirst (fun p => p.socketId == sid)
                    (fun p => { p with playerData :=
                      { p.playerData with ready := true } }) room.players,
                  subEvolved_updateFirst (fun p => p.socketId == sid)
                    (fun p => { p with playerData :=
                      { p.playerData with ready := true } })
                    (fun p => ⟨rfl, rfl, fun _ => rfl⟩) room.players, Or.inl ?_⟩
                rw [hv]
                show updateFirst _ _ room2.players = updateFirst _ _ room.players
                rw [hrm]
              · exact ⟨room.players, subEvolved_refl _, Or.inl (by rw [hsame])⟩
            · simp only [playerReady, hfr, if_neg hany] at hstep
              have hst' : st' = st := by
                split at hstep
                · split at hstep
                  · simp at hstep
                  · simp only [Except.ok.injEq, Prod.mk.injEq] at hstep
                    exact hstep.1.symm
                · simp only [Except.ok.injEq, Prod.mk.injEq] at hstep
                  exact hstep.1.symm
              subst hst'
              rw [hfind] at hfind'
              exact c9_keep room room' (Option.some.inj hfind').symm
    | updateBlock sid pl =>
      simp only [step] at hstep
      have hst' : st' = st := updateBlock_ok_same st st' sid pl out hstep
      subst hst'
      rw [hfind] at hfind'
      exact c9_keep room room' (Option.some.inj hfind').symm
    | disconnect sid =>
      simp only [step, Except.ok.injEq] at hstep
      cases hfd : st.find? (fun kv => kv.2.players.any (fun p => p.socketId == sid)) with
      | none =>
        have hd : disconnect st sid = (st, []) := by simp only [disconnect, hfd]
        rw [hd] at hstep
        injection hstep with h1 h2
        subst h1
        rw [hfind] at hfind'
        exact c9_keep room room' (Option.some.inj hfind').symm
      | some kv =>
        have hmem : kv ∈ st := List.mem_of_find?_eq_some hfd
        have hfr : roomsFind st kv.1 = some kv.2 := roomsFind_of_mem st kv hwk hmem
        by_cases hemp : (removeFirst (fun p => p.socketId == sid) kv.2.players).isEmpty
        · have hd : disconnect st sid = (roomsDelete st kv.1, []) := by
            simp only [disconnect, hfd, if_pos hemp]
          rw [hd] at hstep
          injection hstep with h1 h2
          subst h1
          by_cases h : rid = kv.1
          · rw [h, roomsFind_roomsDelete_self st kv.1 hwk] at hfind'
            exact absurd hfind' (by simp)
          · rw [roomsFind_roomsDelete_other st kv.1 rid h, hfind] at hfind'
            exact c9_keep room room' (Option.some.inj hfind').symm
        · have hd : disconnect st sid =
              (roomsSet st kv.1 { kv.2 with
                players := removeFirst (fun p => p.socketId == sid) kv.2.players },
               [.playerDisconnected kv.1 sid sid]) := by
            simp only [disconnect, hfd, if_neg hemp]
          rw [hd] at hstep
          injection hstep with h1 h2
          subst h1
          rcases c9_set_lookup st rid kv.1 room kv.2 _ room' hfind hfr hfind' with
            ⟨heq, hrm, hv⟩ | ⟨hne, hsame⟩
          · refine ⟨removeFirst (fun p => p.socketId == sid) room.players,
              subEvolved_removeFirst (fun p => p.socketId == sid) room.players,
              Or.inl ?_⟩
            rw [hv]
            show removeFirst _ kv.2.players = removeFirst _ room.players
            rw [hrm]
          · exact ⟨room.players, subEvolved_refl _, Or.inl (by rw [hsame])⟩
  · intro st st' sid rid room out hfind hany hrun
    simp only [playerReady, hfind, if_pos hany] at hrun
    split at hrun
    · split at hrun
      · simp at hrun
      · simp only [Except.ok.injEq, Prod.mk.injEq] at hrun
        exact hrun.1.symm
    · simp only [Except.ok.injEq, Prod.mk.injEq] at hrun
      exact hrun.1.symm

end ARJenga

namespace ARJenga

/-- C9 witness: a fresh entry's ready equals the supplied (defaulted)
flag; a concrete `set-base-position` step relates the player lists by an
evolve-sublist (no ready downgrade); and a concrete `player-ready` sets
the sender's entry ready. -/
theorem c9_witness :
    ((Room.addPlayer ⟨"w", [], []⟩ "A" none).players =
      ([] : List Player) ++
        [⟨"A", ⟨"A", ((none : Option PlayerDataIn).getD PlayerDataIn.empty).ready,
          ((none : Option PlayerDataIn).getD PlayerDataIn.empty).basePosition⟩⟩]) ∧
    (∃ core, SubEvolved (⟨"r", [⟨"A", ⟨"A", true, none⟩⟩], []⟩ : Room).players core ∧
      ((⟨"r", [⟨"A", ⟨"A", true, some ⟨5, 5, 5⟩⟩⟩], []⟩ : Room).players = core ∨
       ∃ jsid jpd,
         Event.setBasePosition "A" (some ⟨some "r", some ⟨5, 5, 5⟩⟩) =
           Event.joinRoom jsid (some ⟨some "r", jpd⟩) ∧
         (⟨"r", [⟨"A", ⟨"A", true, some ⟨5, 5, 5⟩⟩⟩], []⟩ : Room).players = core ++
           [⟨jsid, ⟨jsid, (jpd.getD PlayerDataIn.empty).ready,
             (jpd.getD PlayerDataIn.empty).basePosition⟩⟩])) ∧
    ([("r", ⟨"r", [⟨"A", ⟨"A", true, none⟩⟩], []⟩)] : ServerState) =
      roomsSet [("r", ⟨"r", [⟨"A", ⟨"A", false, none⟩⟩], []⟩)] "r"
        ⟨"r", updateFirst (fun p => p.socketId == "A")
          (fun p => { p with playerData := { p.playerData with ready := true } })
          [⟨"A", ⟨"A", false, none⟩⟩], []⟩ :=
  ⟨c9_amended_ready_monotone.1 ⟨"w", [], []⟩ "A" none,
   c9_amended_ready_monotone.2.1 [("r", ⟨"r", [⟨"A", ⟨"A", true, none⟩⟩], []⟩)]
     (.setBasePosition "A" (some ⟨some "r", some ⟨5, 5, 5⟩⟩))
     [("r", ⟨"r", [⟨"A", ⟨"A", true, some ⟨5, 5, 5⟩⟩⟩], []⟩)] [] "r"
     ⟨"r", [⟨"A", ⟨"A", true, none⟩⟩], []⟩
     ⟨"r", [⟨"A", ⟨"A", true, some ⟨5, 5, 5⟩⟩⟩], []⟩
     (by decide) (by decide) (by decide) (by decide) (by decide),
   c9_amended_ready_monotone.2.2 [("r", ⟨"r", [⟨"A", ⟨"A", false, none⟩⟩], []⟩)]
     [("r", ⟨"r", [⟨"A", ⟨"A", true, none⟩⟩], []⟩)] "A" "r"
     ⟨"r", [⟨"A", ⟨"A", false, none⟩⟩], []⟩
     [.startGame "r" [], .turnUpdate "r" "A"]
     (by decide) (by decide) (by decide)⟩

end ARJenga
